import Mathlib

/-!
Verification of the replication control plane of couchbase-lite-core.

The definitions below shallowly embed the C++ sources:
  * `src/Replicator/c4RemoteReplicator.hh`  (retry backoff, retry ceiling)
  * `src/Networking/HTTPLogic.cc`           (HTTP/WebSocket negotiation)
  * `src/Networking/HTTPTypes.hh`           (status classification)
  * `src/Replicator/Checkpointer.hh`        (checkpoint store interface)
Machine integers (`unsigned` = 32 bits) are embedded as `Nat` with explicit
reduction modulo `2 ^ 32` wherever overflow could occur.
-/

namespace CBL

/-! ## Session/Retry controller: backoff (`c4RemoteReplicator.hh`) -/

/-- `kMaxRetryDelay = 10 * 60` seconds (`c4RemoteReplicator.hh`, line 33). -/
def kMaxRetryDelay : ℕ := 10 * 60

/-- Number of retries before a one-shot replication gives up
(`c4RemoteReplicator.hh`, line 29). -/
def kMaxOneShotRetryCount : ℕ := 2

/-- `UINT_MAX` for a 32-bit `unsigned`. -/
def UINT_MAX : ℕ := 2 ^ 32 - 1

/-- `C4RemoteReplicator::retryDelay` (`c4RemoteReplicator.hh`, lines 36-39):
`unsigned delay = 1 << std::min(retryCount, 30u); return std::min(delay, kMaxRetryDelay);`
The shift of the 32-bit `unsigned` is embedded with an explicit `% 2 ^ 32`. -/
def retryDelay (retryCount : ℕ) : ℕ :=
  min ((1 <<< min retryCount 30) % 2 ^ 32) kMaxRetryDelay

/-- C4: for every retryCount `r ≥ 0`, `retryDelay r = min (2 ^ r) 600` seconds;
in particular `retryDelay 0 = 1`, `retryDelay 10 = 600` and `retryDelay 30 = 600`:
the clamp of the shift amount at 30 keeps the 32-bit computation from
overflowing while preserving `min (2 ^ r) 600` for all `r`. -/
theorem retryDelay_eq_min_pow_600 :
    (∀ r : ℕ, retryDelay r = min (2 ^ r) 600) ∧
    retryDelay 0 = 1 ∧ retryDelay 10 = 600 ∧ retryDelay 30 = 600 := by
  have main : ∀ r : ℕ, retryDelay r = min (2 ^ r) 600 := by
    intro r
    unfold retryDelay kMaxRetryDelay
    rcases le_or_lt r 30 with h | h
    · rw [min_eq_left h, Nat.shiftLeft_eq, one_mul,
        Nat.mod_eq_of_lt (lt_of_lt_of_le (Nat.pow_lt_pow_right one_lt_two (by omega))
          (le_refl (2 ^ 32)))]
    · have h30 : min r 30 = 30 := min_eq_right (by omega)
      have hlarge : (600 : ℕ) ≤ 2 ^ r := by
        calc (600 : ℕ) ≤ 2 ^ 30 := by norm_num
        _ ≤ 2 ^ r := Nat.pow_le_pow_right (by norm_num) (by omega)
      rw [h30, Nat.shiftLeft_eq, one_mul, Nat.mod_eq_of_lt (by norm_num),
        min_eq_right hlarge]
      norm_num
  exact ⟨main, by rw [main 0]; norm_num, by rw [main 10]; norm_num,
    by rw [main 30]; norm_num⟩

/-! ## SHA-1 and base64

`HTTPLogic::handleUpgrade` (`HTTPLogic.cc`, lines 303-308) checks the
`Sec-Websocket-Accept` header against the base64 encoding of the SHA-1 digest
of the request nonce concatenated with the RFC 6455 magic GUID.  The digest and
encoding are embedded here bit-for-bit over byte lists, with all 32-bit
arithmetic reduced modulo `2 ^ 32`. -/

/-- Truncation to a 32-bit word. -/
def w32 (x : ℕ) : ℕ := x % 2 ^ 32

/-- 32-bit left rotation by `s` (for `x < 2 ^ 32`, `0 < s < 32`). -/
def rotl (s x : ℕ) : ℕ := ((x <<< s) % 2 ^ 32) ||| (x >>> (32 - s))

/-- Big-endian byte rendering of `n` into `k` bytes. -/
def natToBytesBE (n k : ℕ) : List ℕ :=
  (List.range k).map (fun i => (n >>> (8 * (k - 1 - i))) % 256)

/-- Groups a byte list into big-endian 32-bit words. -/
def bytesToWords : List ℕ → List ℕ
  | b0 :: b1 :: b2 :: b3 :: rest =>
      (b0 * 2 ^ 24 + b1 * 2 ^ 16 + b2 * 2 ^ 8 + b3) :: bytesToWords rest
  | _ => []

/-- SHA-1 message schedule: extends the 16 block words to 80. -/
def sha1Extend (ws : Array ℕ) : Array ℕ :=
  (List.range 64).foldl
    (fun a j =>
      a.push (rotl 1 ((a.getD (j + 13) 0) ^^^ (a.getD (j + 8) 0) ^^^
                      (a.getD (j + 2) 0) ^^^ (a.getD j 0))))
    ws

/-- SHA-1 round function for round `t`. -/
def sha1F (t b c d : ℕ) : ℕ :=
  if t < 20 then (b &&& c) ||| ((b ^^^ 4294967295) &&& d)
  else if t < 40 then b ^^^ c ^^^ d
  else if t < 60 then (b &&& c) ||| (b &&& d) ||| (c &&& d)
  else b ^^^ c ^^^ d

/-- SHA-1 round constant for round `t`. -/
def sha1K (t : ℕ) : ℕ :=
  if t < 20 then 0x5A827999
  else if t < 40 then 0x6ED9EBA1
  else if t < 60 then 0x8F1BBCDC
  else 0xCA62C1D6

/-- The five 32-bit SHA-1 chaining words. -/
structure SHA1State where
  a : ℕ
  b : ℕ
  c : ℕ
  d : ℕ
  e : ℕ

/-- One SHA-1 compression round. -/
def sha1Round (w : Array ℕ) (s : SHA1State) (t : ℕ) : SHA1State :=
  ⟨w32 (rotl 5 s.a + sha1F t s.b s.c s.d + s.e + sha1K t + w.getD t 0),
   s.a, rotl 30 s.b, s.c, s.d⟩

/-- Processes one 64-byte block. -/
def sha1Block (h : SHA1State) (block : List ℕ) : SHA1State :=
  let ws := sha1Extend (Array.mk (bytesToWords block))
  let f := (List.range 80).foldl (sha1Round ws) h
  ⟨w32 (h.a + f.a), w32 (h.b + f.b), w32 (h.c + f.c), w32 (h.d + f.d),
   w32 (h.e + f.e)⟩

/-- SHA-1 padding: `0x80`, zeros to 56 mod 64, then the 64-bit bit length. -/
def sha1Pad (msg : List ℕ) : List ℕ :=
  msg ++ 128 :: List.replicate ((120 - ((msg.length + 1) % 64)) % 64) 0 ++
    natToBytesBE (msg.length * 8) 8

/-- Splits a byte list into 64-byte chunks (`fuel` bounds the recursion; it is
instantiated with the list length, which always suffices). -/
def chunks64Go : ℕ → List ℕ → List (List ℕ)
  | 0, _ => []
  | _, [] => []
  | fuel + 1, x :: xs => ((x :: xs).take 64) :: chunks64Go fuel ((x :: xs).drop 64)

/-- Splits a byte list into 64-byte chunks. -/
def chunks64 (l : List ℕ) : List (List ℕ) := chunks64Go l.length l

/-- SHA-1 of a byte list, as the 20 digest bytes. -/
def sha1 (msg : List ℕ) : List ℕ :=
  let final := (chunks64 (sha1Pad msg)).foldl sha1Block
    ⟨0x67452301, 0xEFCDAB89, 0x98BADCFE, 0x10325476, 0xC3D2E1F0⟩
  natToBytesBE final.a 4 ++ natToBytesBE final.b 4 ++ natToBytesBE final.c 4 ++
    natToBytesBE final.d 4 ++ natToBytesBE final.e 4

/-- The standard base64 alphabet. -/
def base64Alphabet : List Char :=
  "ABCDEFGHIJKLMNOPQRSTUVWXYZabcdefghijklmnopqrstuvwxyz0123456789+/".data

/-- The base64 digit for a 6-bit value. -/
def b64c (n : ℕ) : Char := base64Alphabet.getD n 'A'

/-- Base64 encoding of a byte list (with `=` padding). -/
def base64Encode : List ℕ → List Char
  | [] => []
  | [b0] => [b64c (b0 >>> 2), b64c ((b0 % 4) <<< 4), '=', '=']
  | [b0, b1] =>
      [b64c (b0 >>> 2), b64c (((b0 % 4) <<< 4) ||| (b1 >>> 4)),
       b64c ((b1 % 16) <<< 2), '=']
  | b0 :: b1 :: b2 :: rest =>
      b64c (b0 >>> 2) :: b64c (((b0 % 4) <<< 4) ||| (b1 >>> 4)) ::
      b64c (((b1 % 16) <<< 2) ||| (b2 >>> 6)) :: b64c (b2 % 64) ::
      base64Encode rest

/-- `slice::base64String` as used in `HTTPLogic.cc`, over byte lists. -/
def base64String (bytes : List ℕ) : String := String.mk (base64Encode bytes)

/-- The bytes of an ASCII string. -/
def strBytes (s : String) : List ℕ := s.data.map Char.toNat

/-- The RFC 6455 magic GUID appended to the nonce (`HTTPLogic.cc`, line 304). -/
def kWebSocketMagicGUID : String := "258EAFA5-E914-47DA-95CA-C5AB0DC85B11"

/-- The expected `Sec-Websocket-Accept` value computed by
`HTTPLogic::handleUpgrade` (`HTTPLogic.cc`, lines 304-305): base64 of
SHA-1(nonce + GUID). -/
def webSocketAccept (nonce : String) : String :=
  base64String (sha1 (strBytes (nonce ++ kWebSocketMagicGUID)))

/-! ## HTTP negotiation state machine (`HTTPLogic.cc`) -/

/-- Error domains from `c4Base.h` (an external header; only the domains used by
`HTTPLogic.cc` and `c4RemoteReplicator.hh` are represented). -/
inductive ErrorDomain where
  | LiteCoreDomain
  | NetworkDomain
  | WebSocketDomain
deriving DecidableEq, Repr

/-- A `C4Error`: domain, code and message. -/
structure C4Error where
  domain : ErrorDomain
  code : ℕ
  message : String
deriving DecidableEq, Repr

/-- `HTTPLogic::Disposition` (declared in `HTTPLogic.hh`, used throughout
`HTTPLogic.cc`). -/
inductive Disposition where
  | kSuccess
  | kRetry
  | kContinue
  | kAuthenticate
  | kFailure
deriving DecidableEq, Repr

/-- `kMaxRedirects` (`HTTPLogic.cc`, line 36). -/
def kMaxRedirects : ℕ := 10

/-- WebSocket close code `kCodeProtocolError` (RFC 6455 value 1002, from the
external `WebSocketInterface.hh`). -/
def kCodeProtocolError : ℕ := 1002

/-- `kC4NetErrTooManyRedirects` (value mirrors the external `c4Base.h`; the
claims depend only on which error is produced, not on the numeral). -/
def kC4NetErrTooManyRedirects : ℕ := 5

/-- `kC4NetErrInvalidRedirect` (value mirrors the external `c4Base.h`). -/
def kC4NetErrInvalidRedirect : ℕ := 12

/-- `IsSuccess` (`HTTPTypes.hh`, line 41): `int(s) < 300`. -/
def IsSuccess (status : ℕ) : Bool := status < 300

/-- A `C4Address`: scheme, host, port, path. -/
structure C4Addr where
  scheme : String
  hostname : String
  port : ℕ
  path : String
deriving DecidableEq, Repr

/-- `ProxyType` (from `HTTPLogic.hh`): an ordinary HTTP proxy or a CONNECT
tunnel. -/
inductive ProxyType where
  | HTTP
  | CONNECT
deriving DecidableEq, Repr

/-- `ProxySpec`: proxy type, address and optional `Proxy-Authorization` header
value (`nullslice` is `none`). -/
structure ProxySpec where
  type : ProxyType
  address : C4Addr
  authHeader : Option String
deriving DecidableEq, Repr

/-- Response headers as a name/value list; lookup returns the first match, and
a missing header reads as `""` (modelling `nullslice`). -/
def headersGet (hs : List (String × String)) (name : String) : String :=
  match hs.find? (fun kv => kv.1 == name) with
  | some kv => kv.2
  | none => ""

/-- A parsed HTTP response (status line and headers), the input to
`HTTPLogic::receivedResponse` after `parseStatusLine`/`parseHeaders`. -/
structure HTTPResponse where
  status : ℕ
  message : String
  headers : List (String × String)

/-- `HTTPLogic::AuthChallenge` (declared in `HTTPLogic.hh`): the parsed
`Www-Authenticate`/`Proxy-Authenticate` challenge. -/
structure AuthChallenge where
  forProxy : Bool
  address : C4Addr
  type : String
  key : String
  value : String
deriving DecidableEq, Repr

/-- The mutable state of one `HTTPLogic` negotiation (the fields of class
`HTTPLogic` that `HTTPLogic.cc` reads or writes). -/
structure HTTPLogicState where
  address : C4Addr
  handleRedirects : Bool
  isWebSocket : Bool
  proxy : Option ProxySpec
  authHeader : Option String
  authChallenged : Bool
  redirectCount : ℕ
  lastDisposition : Option Disposition
  httpStatus : ℕ
  statusMessage : String
  error : Option C4Error
  authChallenge : Option AuthChallenge
  webSocketNonce : String
  webSocketProtocol : Option String
deriving DecidableEq, Repr

namespace HTTPLogic

/-- The `HTTPLogic` constructor (`HTTPLogic.cc`, lines 42-48) with no default
proxy configured.  The WebSocket nonce is generated randomly by
`requestToSend`; the generated value is a parameter here. -/
def init (address : C4Addr) (handleRedirects : Bool) (nonce : String)
    (protocol : Option String) : HTTPLogicState :=
  { address := address
    handleRedirects := handleRedirects
    isWebSocket := address.scheme == "ws" || address.scheme == "wss"
    proxy := none
    authHeader := none
    authChallenged := false
    redirectCount := 0
    lastDisposition := none
    httpStatus := 0
    statusMessage := ""
    error := none
    authChallenge := none
    webSocketNonce := nonce
    webSocketProtocol := protocol }

/-- `HTTPLogic::connectingToProxy` (`HTTPLogic.cc`, lines 78-80). -/
def connectingToProxy (s : HTTPLogicState) : Bool :=
  match s.proxy with
  | some p => p.type == ProxyType.CONNECT &&
      s.lastDisposition != some Disposition.kContinue
  | none => false

/-- `HTTPLogic::failure(domain, code, message)` (`HTTPLogic.cc`, lines
314-318). -/
def mkFailure (s : HTTPLogicState) (domain : ErrorDomain) (code : ℕ)
    (message : String) : HTTPLogicState × Disposition :=
  ({s with error := some ⟨domain, code, message⟩}, .kFailure)

/-- `HTTPLogic::failure()` (`HTTPLogic.cc`, lines 328-330): a failure carrying
the HTTP status and reason phrase. -/
def statusFailure (s : HTTPLogicState) : HTTPLogicState × Disposition :=
  mkFailure s .WebSocketDomain s.httpStatus s.statusMessage

end HTTPLogic

/-- Modelled from the spec: the external `c4address_fromURL` collaborator
(declared in `c4Replicator.h`, implementation not under `src/`) parses a full
URL `scheme://host[:port]/path` into a `C4Addr`; §3 of the spec gives the
Address fields and §4.1 requires full redirect URLs to parse this way.  Returns
`none` on a malformed URL. -/
def parseURL (url : String) : Option C4Addr :=
  match url.splitOn "://" with
  | [scheme, rest] =>
    if scheme == "" then none
    else
      let hostport := rest.takeWhile (fun c => c != '/')
      let path0 := rest.drop hostport.length
      let path := if path0 == "" then "/" else path0
      match hostport.splitOn ":" with
      | [host] =>
        if host == "" then none
        else some ⟨scheme, host,
          if scheme == "https" || scheme == "wss" then 443 else 80, path⟩
      | [host, portStr] =>
        if host == "" then none
        else match portStr.toNat? with
          | some p => some ⟨scheme, host, p, path⟩
          | none => none
      | _ => none
  | _ => none

/-- `slice::hasPrefix('/')` as used on redirect locations (`HTTPLogic.cc`,
line 247): does the string start with a slash? -/
def startsWithSlash (s : String) : Bool :=
  match s.data with
  | c :: _ => c == '/'
  | [] => false

/-- The double-quote character (kept out of character-literal form). -/
def dquote : Char := Char.ofNat 34

/-- A `\w` word character. -/
def isWordChar (c : Char) : Bool := c.isAlphanum || c == '_'

/-- The `regex_search` of `HTTPLogic::handleAuthChallenge` (`HTTPLogic.cc`,
line 272) with pattern `(\w+)\s+(\w+)=((\w+)|"([^"]+))`, anchored at the start
of the header (the shape servers send, e.g. `Basic realm="Foobar"`).  Returns
(type, key, value), or `none` when the header does not match. -/
def parseAuthHeader (h : String) : Option (String × String × String) :=
  let cs := h.data
  let ty := cs.takeWhile isWordChar
  let rest1 := cs.drop ty.length
  let sp := rest1.takeWhile (fun c => c == ' ' || c == '\t')
  let rest2 := rest1.drop sp.length
  let key := rest2.takeWhile isWordChar
  let rest3 := rest2.drop key.length
  if ty.isEmpty || sp.isEmpty || key.isEmpty then none
  else
    match rest3 with
    | [] => none
    | eq :: rest4 =>
      if eq != '=' then none
      else
        match rest4 with
        | [] => none
        | q :: more =>
          if q == dquote then
            let v := more.takeWhile (fun c => c != dquote)
            if v.isEmpty then none
            else some (String.mk ty, String.mk key, String.mk v)
          else
            let v := rest4.takeWhile isWordChar
            if v.isEmpty then none
            else some (String.mk ty, String.mk key, String.mk v)

namespace HTTPLogic

/-- `HTTPLogic::handleRedirect` (`HTTPLogic.cc`, lines 239-266). -/
def handleRedirect (s : HTTPLogicState) (headers : List (String × String)) :
    HTTPLogicState × Disposition :=
  if !s.handleRedirects then statusFailure s
  else
    let s := {s with redirectCount := s.redirectCount + 1}
    if s.redirectCount > kMaxRedirects then
      mkFailure s .NetworkDomain kC4NetErrTooManyRedirects ""
    else
      let location := headersGet headers "Location"
      let newAddrOpt :=
        if startsWithSlash location then some {s.address with path := location}
        else
          match parseURL location with
          | some a =>
            if a.scheme == "http" || a.scheme == "https" then some a else none
          | none => none
      match newAddrOpt with
      | none => mkFailure s .NetworkDomain kC4NetErrInvalidRedirect ""
      | some newAddr =>
        if s.httpStatus == 305 then
          if s.proxy.isSome then statusFailure s
          else ({s with proxy := some ⟨ProxyType.HTTP, newAddr, none⟩}, .kRetry)
        else
          let s :=
            if newAddr.hostname != s.address.hostname then
              {s with authHeader := none}
            else s
          ({s with address := newAddr}, .kRetry)

/-- `HTTPLogic::handleAuthChallenge` (`HTTPLogic.cc`, lines 269-286).  (With
`forProxy` the source dereferences `_proxy`; callers only reach it with a proxy
configured, and the model falls back to `_address` when there is none.) -/
def handleAuthChallenge (s : HTTPLogicState) (headers : List (String × String))
    (headerName : String) (forProxy : Bool) : HTTPLogicState × Disposition :=
  match parseAuthHeader (headersGet headers headerName) with
  | none => mkFailure s .WebSocketDomain 400 ""
  | some (ty, key, val) =>
    let chAddr :=
      if forProxy then
        match s.proxy with
        | some p => p.address
        | none => s.address
      else s.address
    let s := {s with authChallenge := some ⟨forProxy, chAddr, ty, key, val⟩}
    let s := if forProxy then s else {s with authChallenged := true}
    (s, .kAuthenticate)

/-- `HTTPLogic::handleUpgrade` (`HTTPLogic.cc`, lines 289-311). -/
def handleUpgrade (s : HTTPLogicState) (headers : List (String × String)) :
    HTTPLogicState × Disposition :=
  if !s.isWebSocket then mkFailure s .WebSocketDomain kCodeProtocolError ""
  else if headersGet headers "Connection" != "Upgrade" ||
      headersGet headers "Upgrade" != "websocket" then
    mkFailure s .WebSocketDomain kCodeProtocolError
      "Server failed to upgrade connection"
  else if (match s.webSocketProtocol with
           | some p => headersGet headers "Sec-Websocket-Protocol" != p
           | none => false) then
    mkFailure s .WebSocketDomain 403 "Server did not accept protocol"
  else if headersGet headers "Sec-Websocket-Accept" !=
      webSocketAccept s.webSocketNonce then
    mkFailure s .WebSocketDomain kCodeProtocolError
      "Server returned invalid nonce"
  else (s, .kSuccess)

/-- `HTTPLogic::handleResponse` (`HTTPLogic.cc`, lines 165-195).  The statuses
301/302/307/305 are `MovedPermanently`/`Found`/`TemporaryRedirect`/`UseProxy`,
401 is `Unauthorized`, 407 is `ProxyAuthRequired`, 101 is `Upgraded`. -/
def handleResponse (s : HTTPLogicState) (headers : List (String × String)) :
    HTTPLogicState × Disposition :=
  if s.httpStatus == 301 || s.httpStatus == 302 || s.httpStatus == 307 ||
      s.httpStatus == 305 then
    handleRedirect s headers
  else if s.httpStatus == 401 then
    let s :=
      if s.authChallenged then {s with authHeader := none}
      else {s with authChallenged := true}
    handleAuthChallenge s headers "Www-Authenticate" false
  else if s.httpStatus == 407 then
    let s := {s with proxy := s.proxy.map (fun p => {p with authHeader := none})}
    handleAuthChallenge s headers "Proxy-Authenticate" true
  else if s.httpStatus == 101 then handleUpgrade s headers
  else if !IsSuccess s.httpStatus then statusFailure s
  else if connectingToProxy s then (s, .kContinue)
  else if s.isWebSocket then
    mkFailure s .WebSocketDomain kCodeProtocolError
      "Server failed to upgrade connection"
  else (s, .kSuccess)

/-- `HTTPLogic::receivedResponse` (`HTTPLogic.cc`, lines 150-162), taking the
already-parsed response (`parseStatusLine`/`parseHeaders` succeeded). -/
def receivedResponse (s : HTTPLogicState) (resp : HTTPResponse) :
    HTTPLogicState × Disposition :=
  let s := {s with httpStatus := resp.status, statusMessage := resp.message,
                   error := none, authChallenge := none}
  let sd := handleResponse s resp.headers
  ({sd.1 with lastDisposition := some sd.2}, sd.2)

/-- The headers attached by `HTTPLogic::requestToSend` (`HTTPLogic.cc`, lines
89-138), as a name/value list.  The request-line, `User-Agent`,
`Content-Length` and the caller-supplied `_requestHeaders` are omitted: they
are fixed inputs that never carry `Authorization`. -/
def requestToSend (s : HTTPLogicState) : List (String × String) :=
  ("Host", s.address.hostname ++ ":" ++ toString s.address.port) ::
  ((match s.proxy with
    | some p =>
      match p.authHeader with
      | some h => [("Proxy-Authorization", h)]
      | none => []
    | none => []) ++
   (if connectingToProxy s then []
    else
      (match s.authHeader with
       | some a => if s.authChallenged then [("Authorization", a)] else []
       | none => []) ++
      (if s.isWebSocket then
        [("Connection", "Upgrade"), ("Upgrade", "websocket"),
         ("Sec-WebSocket-Version", "13"),
         ("Sec-WebSocket-Key", s.webSocketNonce)] ++
        (match s.webSocketProtocol with
         | some p => [("Sec-WebSocket-Protocol", p)]
         | none => [])
       else [])))

end HTTPLogic

/-! ### C3: the WebSocket upgrade handshake -/

set_option maxRecDepth 10000

/-- C3 (amended): on a 101 response to a WebSocket upgrade request
(`isWebSocket = true` routes the 101 into `handleUpgrade`), the negotiator
returns `kSuccess` iff the `Connection` header is `Upgrade`, the `Upgrade`
header is `websocket`, the subprotocol matches when one was requested, and
`Sec-Websocket-Accept` equals base64(SHA-1(nonce + magic GUID)).  Any mismatch
yields a `kFailure` in `WebSocketDomain` — never silent acceptance — with code
`kCodeProtocolError`, except that a subprotocol mismatch carries code 403.  For
nonce `"dGhlIHNhbXBsZSBub25jZQ=="` the accepted value is
`"s3pPLMBiTxaQ9kYGzzhZRbK+xOo="`. -/
theorem handleUpgrade_success_iff (s : HTTPLogicState)
    (hs : List (String × String)) (hws : s.isWebSocket = true) :
    ((HTTPLogic.handleUpgrade s hs).2 = Disposition.kSuccess ↔
      (headersGet hs "Connection" = "Upgrade" ∧
       headersGet hs "Upgrade" = "websocket" ∧
       (∀ p, s.webSocketProtocol = some p →
          headersGet hs "Sec-Websocket-Protocol" = p) ∧
       headersGet hs "Sec-Websocket-Accept" = webSocketAccept s.webSocketNonce)) ∧
    ((HTTPLogic.handleUpgrade s hs).2 = Disposition.kSuccess ∨
     ((HTTPLogic.handleUpgrade s hs).2 = Disposition.kFailure ∧
      ∃ e, (HTTPLogic.handleUpgrade s hs).1.error = some e ∧
        e.domain = ErrorDomain.WebSocketDomain ∧
        (e.code = kCodeProtocolError ∨ (e.code = 403 ∧
          ∃ p, s.webSocketProtocol = some p ∧
            headersGet hs "Sec-Websocket-Protocol" ≠ p)))) ∧
    webSocketAccept "dGhlIHNhbXBsZSBub25jZQ==" = "s3pPLMBiTxaQ9kYGzzhZRbK+xOo=" := by
  refine ⟨?_, ?_, by decide⟩ <;>
  (by_cases hc : headersGet hs "Connection" = "Upgrade" <;>
   by_cases hu : headersGet hs "Upgrade" = "websocket" <;>
   rcases hp : s.webSocketProtocol with _ | p <;>
   by_cases ha : headersGet hs "Sec-Websocket-Accept" =
     webSocketAccept s.webSocketNonce <;>
   simp_all [HTTPLogic.handleUpgrade, HTTPLogic.mkFailure, bne_iff_ne] <;>
   split <;> simp_all)

/-- A 101 negotiation state for a plain WebSocket target (no subprotocol
requested), carrying the RFC 6455 example nonce. -/
def exUpgradeState : HTTPLogicState :=
  HTTPLogic.init ⟨"ws", "example.com", 80, "/db"⟩ true
    "dGhlIHNhbXBsZSBub25jZQ==" none

/-- A correct 101 upgrade response for `exUpgradeState`. -/
def exUpgradeHeaders : List (String × String) :=
  [("Connection", "Upgrade"), ("Upgrade", "websocket"),
   ("Sec-Websocket-Accept", "s3pPLMBiTxaQ9kYGzzhZRbK+xOo=")]

/-- Witness for `handleUpgrade_success_iff` at the RFC 6455 example. -/
theorem handleUpgrade_success_iff_witness :
    exUpgradeState.isWebSocket = true ∧
    (HTTPLogic.handleUpgrade exUpgradeState exUpgradeHeaders).2 =
      Disposition.kSuccess := by
  have h := handleUpgrade_success_iff exUpgradeState exUpgradeHeaders rfl
  refine ⟨rfl, h.1.mpr ⟨rfl, rfl, ?_, ?_⟩⟩
  · intro p hp
    simp [exUpgradeState, HTTPLogic.init] at hp
  · exact h.2.2.symm

/-- A 101 negotiation state requesting subprotocol `"BLIP"`. -/
def exProtoState : HTTPLogicState :=
  HTTPLogic.init ⟨"ws", "example.com", 80, "/db"⟩ true
    "dGhlIHNhbXBsZSBub25jZQ==" (some "BLIP")

/-- A 101 response whose only mismatch is the subprotocol. -/
def exProtoHeaders : List (String × String) :=
  [("Connection", "Upgrade"), ("Upgrade", "websocket"),
   ("Sec-Websocket-Protocol", "other"),
   ("Sec-Websocket-Accept", "s3pPLMBiTxaQ9kYGzzhZRbK+xOo=")]

/-- Counterexample to C3 as stated: a subprotocol mismatch (all other checks
would pass) yields a `kFailure` whose error code is 403, not the WebSocket
protocol-error code 1002 — so "any mismatch yields a protocol-error Failure"
fails, though the mismatch is still rejected. -/
theorem handleUpgrade_subprotocol_mismatch_code_403 :
    (HTTPLogic.handleUpgrade exProtoState exProtoHeaders).2 =
      Disposition.kFailure ∧
    (HTTPLogic.handleUpgrade exProtoState exProtoHeaders).1.error =
      some ⟨ErrorDomain.WebSocketDomain, 403, "Server did not accept protocol"⟩ ∧
    (403 : ℕ) ≠ kCodeProtocolError := by decide

/-! ### C10: a plain HTTP success never completes a WebSocket negotiation -/

/-- C10: on a WebSocket-target negotiation that is not mid-proxy-tunnel, a 2xx
status other than 101 yields a `kFailure` with the protocol error "Server
failed to upgrade connection" (never `kSuccess`); conversely a 101 received
when the target is not a WebSocket yields a protocol-error `kFailure` (with no
message, `HTTPLogic.cc` line 291). -/
theorem receivedResponse_websocket_needs_101 (s : HTTPLogicState)
    (resp : HTTPResponse) :
    (200 ≤ resp.status → resp.status < 300 → s.isWebSocket = true →
      HTTPLogic.connectingToProxy s = false →
      (HTTPLogic.receivedResponse s resp).2 = Disposition.kFailure ∧
      (HTTPLogic.receivedResponse s resp).1.error =
        some ⟨ErrorDomain.WebSocketDomain, kCodeProtocolError,
              "Server failed to upgrade connection"⟩) ∧
    (resp.status = 101 → s.isWebSocket = false →
      (HTTPLogic.receivedResponse s resp).2 = Disposition.kFailure ∧
      (HTTPLogic.receivedResponse s resp).1.error =
        some ⟨ErrorDomain.WebSocketDomain, kCodeProtocolError, ""⟩) := by
  constructor
  · intro hlo hhi hws hnp
    have h1 : (resp.status == 301) = false := beq_eq_false_iff_ne.mpr (by omega)
    have h2 : (resp.status == 302) = false := beq_eq_false_iff_ne.mpr (by omega)
    have h3 : (resp.status == 307) = false := beq_eq_false_iff_ne.mpr (by omega)
    have h4 : (resp.status == 305) = false := beq_eq_false_iff_ne.mpr (by omega)
    have h5 : (resp.status == 401) = false := beq_eq_false_iff_ne.mpr (by omega)
    have h6 : (resp.status == 407) = false := beq_eq_false_iff_ne.mpr (by omega)
    have h7 : (resp.status == 101) = false := beq_eq_false_iff_ne.mpr (by omega)
    have hsucc : IsSuccess resp.status = true := by
      simp [IsSuccess]; omega
    have hnp2 : HTTPLogic.connectingToProxy
        {s with httpStatus := resp.status, statusMessage := resp.message,
                error := none, authChallenge := none} = false := hnp
    rw [hws] at hnp2
    simp [HTTPLogic.receivedResponse, HTTPLogic.handleResponse,
      h1, h2, h3, h4, h5, h6, h7, hsucc, hnp2, hws, HTTPLogic.mkFailure]
  · intro h101 hws
    simp [HTTPLogic.receivedResponse, HTTPLogic.handleResponse, h101,
      HTTPLogic.handleUpgrade, hws, HTTPLogic.mkFailure]

/-- A plain-HTTP (non-WebSocket) negotiation state. -/
def exPlainState : HTTPLogicState :=
  HTTPLogic.init ⟨"http", "example.com", 80, "/db"⟩ true "" none

/-- Witness for `receivedResponse_websocket_needs_101`: a 200 on a WebSocket
target fails, and a 101 on a plain-HTTP target fails. -/
theorem receivedResponse_websocket_needs_101_witness :
    (HTTPLogic.receivedResponse exUpgradeState ⟨200, "OK", []⟩).2 =
      Disposition.kFailure ∧
    (HTTPLogic.receivedResponse exPlainState ⟨101, "Switching Protocols", []⟩).2 =
      Disposition.kFailure :=
  ⟨((receivedResponse_websocket_needs_101 exUpgradeState ⟨200, "OK", []⟩).1
      (by decide) (by decide) rfl rfl).1,
   ((receivedResponse_websocket_needs_101 exPlainState
      ⟨101, "Switching Protocols", []⟩).2 rfl rfl).1⟩

/-! ### C5: the redirect ceiling -/

/-- Feeding a sequence of responses into the negotiation one at a time
(the loop around `receivedResponse` that `sendNextRequest` drives). -/
def runResponses (s : HTTPLogicState) : List HTTPResponse → HTTPLogicState
  | [] => s
  | r :: rs => runResponses (HTTPLogic.receivedResponse s r).1 rs

/-- A redirect response the negotiator follows without changing hosts: a
301/302/307 status and a relative (absolute-path) `Location`. -/
def ValidRedirect (r : HTTPResponse) : Prop :=
  (r.status = 301 ∨ r.status = 302 ∨ r.status = 307) ∧
  startsWithSlash (headersGet r.headers "Location") = true

instance : DecidablePred ValidRedirect := fun _ => by
  unfold ValidRedirect; exact inferInstance

/-- One accepted redirect step: below the cap, a valid redirect yields `kRetry`
and bumps `_redirectCount`, rewriting only the address path. -/
theorem receivedResponse_validRedirect (s : HTTPLogicState) (r : HTTPResponse)
    (hhr : s.handleRedirects = true) (hcount : s.redirectCount < 10)
    (hv : ValidRedirect r) :
    HTTPLogic.receivedResponse s r =
      ({s with address := {s.address with path := headersGet r.headers "Location"},
               redirectCount := s.redirectCount + 1,
               httpStatus := r.status, statusMessage := r.message,
               error := none, authChallenge := none,
               lastDisposition := some Disposition.kRetry}, Disposition.kRetry) := by
  obtain ⟨hst, hloc⟩ := hv
  have hle : ¬(s.redirectCount + 1 > kMaxRedirects) := by
    simp [kMaxRedirects]; omega
  rcases hst with h | h | h <;>
  simp [HTTPLogic.receivedResponse, HTTPLogic.handleResponse,
    HTTPLogic.handleRedirect, h, hle, hloc, hhr, HTTPLogic.mkFailure]

/-- `runResponses` over an appended final response. -/
theorem runResponses_append (s : HTTPLogicState) (rs : List HTTPResponse)
    (x : HTTPResponse) :
    runResponses s (rs ++ [x]) =
      (HTTPLogic.receivedResponse (runResponses s rs) x).1 := by
  induction rs generalizing s with
  | nil => simp [runResponses]
  | cons r rs ih => simp [runResponses, ih]

/-- Running a chain of at most `10 - redirectCount` valid redirects preserves
the negotiation configuration and adds the chain length to
`_redirectCount`. -/
theorem runResponses_redirects (rs : List HTTPResponse) :
    ∀ s : HTTPLogicState, s.handleRedirects = true →
      s.redirectCount + rs.length ≤ 10 → (∀ r ∈ rs, ValidRedirect r) →
      (runResponses s rs).handleRedirects = true ∧
      (runResponses s rs).proxy = s.proxy ∧
      (runResponses s rs).isWebSocket = s.isWebSocket ∧
      (runResponses s rs).redirectCount = s.redirectCount + rs.length := by
  induction rs with
  | nil => intro s h1 _ _; exact ⟨h1, rfl, rfl, by simp [runResponses]⟩
  | cons r rs ih =>
    intro s h1 h2 h3
    have hv : ValidRedirect r := h3 r (List.mem_cons_self r rs)
    have hlt : s.redirectCount < 10 := by
      simp [List.length_cons] at h2; omega
    have hstep := receivedResponse_validRedirect s r h1 hlt hv
    have ih2 := ih (HTTPLogic.receivedResponse s r).1
      (by simp [hstep, h1])
      (by simp [hstep]; simp [List.length_cons] at h2; omega)
      (fun x hx => h3 x (List.mem_cons_of_mem r hx))
    rw [runResponses]
    refine ⟨ih2.1, ?_, ?_, ?_⟩
    · rw [ih2.2.1, hstep]
    · rw [ih2.2.2.1, hstep]
    · rw [ih2.2.2.2, hstep]
      simp [List.length_cons]
      omega

/-- A plain (non-WebSocket, non-tunnel) 2xx terminal response yields
`kSuccess` and leaves the redirect count alone. -/
theorem receivedResponse_plain_success (s : HTTPLogicState) (resp : HTTPResponse)
    (hlo : 200 ≤ resp.status) (hhi : resp.status < 300)
    (hws : s.isWebSocket = false) (hnp : HTTPLogic.connectingToProxy s = false) :
    (HTTPLogic.receivedResponse s resp).2 = Disposition.kSuccess ∧
    (HTTPLogic.receivedResponse s resp).1.lastDisposition =
      some Disposition.kSuccess ∧
    (HTTPLogic.receivedResponse s resp).1.redirectCount = s.redirectCount := by
  have h1 : (resp.status == 301) = false := beq_eq_false_iff_ne.mpr (by omega)
  have h2 : (resp.status == 302) = false := beq_eq_false_iff_ne.mpr (by omega)
  have h3 : (resp.status == 307) = false := beq_eq_false_iff_ne.mpr (by omega)
  have h4 : (resp.status == 305) = false := beq_eq_false_iff_ne.mpr (by omega)
  have h5 : (resp.status == 401) = false := beq_eq_false_iff_ne.mpr (by omega)
  have h6 : (resp.status == 407) = false := beq_eq_false_iff_ne.mpr (by omega)
  have h7 : (resp.status == 101) = false := beq_eq_false_iff_ne.mpr (by omega)
  have hsucc : IsSuccess resp.status = true := by simp [IsSuccess]; omega
  have hnp2 : HTTPLogic.connectingToProxy
      {s with httpStatus := resp.status, statusMessage := resp.message,
              error := none, authChallenge := none} = false := hnp
  rw [hws] at hnp2
  simp [HTTPLogic.receivedResponse, HTTPLogic.handleResponse,
    h1, h2, h3, h4, h5, h6, h7, hsucc, hnp2, hws]

/-- At `_redirectCount = 10` any further redirect-status response fails with
`kC4NetErrTooManyRedirects` before its `Location` is even parsed. -/
theorem receivedResponse_too_many (s : HTTPLogicState) (r : HTTPResponse)
    (hhr : s.handleRedirects = true) (hc : s.redirectCount = 10)
    (hst : r.status = 301 ∨ r.status = 302 ∨ r.status = 307 ∨ r.status = 305) :
    (HTTPLogic.receivedResponse s r).2 = Disposition.kFailure ∧
    (HTTPLogic.receivedResponse s r).1.error =
      some ⟨ErrorDomain.NetworkDomain, kC4NetErrTooManyRedirects, ""⟩ ∧
    (HTTPLogic.receivedResponse s r).1.lastDisposition =
      some Disposition.kFailure := by
  rcases hst with h | h | h | h <;>
  simp [HTTPLogic.receivedResponse, HTTPLogic.handleResponse,
    HTTPLogic.handleRedirect, h, hhr, hc, kMaxRedirects, HTTPLogic.mkFailure]

/-- C5: at most `kMaxRedirects = 10` redirects are followed.  A chain of
`≤ 10` accepted redirects ending in a 2xx response ends in `kSuccess` (with
the redirect counter equal to the chain length); after 10 redirects, an 11th
redirect response produces a fatal `kC4NetErrTooManyRedirects` `kFailure` in
`NetworkDomain` — not a `kRetry`, so the caller's `sendNextRequest` loop stops
and no 11th request is attempted. -/
theorem redirect_chain_capped (s0 : HTTPLogicState) (rs : List HTTPResponse) :
    (∀ final : HTTPResponse,
      s0.handleRedirects = true → s0.proxy = none → s0.isWebSocket = false →
      s0.redirectCount = 0 → rs.length ≤ 10 → (∀ r ∈ rs, ValidRedirect r) →
      200 ≤ final.status → final.status < 300 →
      (runResponses s0 (rs ++ [final])).lastDisposition =
        some Disposition.kSuccess ∧
      (runResponses s0 (rs ++ [final])).redirectCount = rs.length) ∧
    (∀ r11 : HTTPResponse,
      s0.handleRedirects = true → s0.proxy = none → s0.isWebSocket = false →
      s0.redirectCount = 0 → rs.length = 10 → (∀ r ∈ rs, ValidRedirect r) →
      (r11.status = 301 ∨ r11.status = 302 ∨ r11.status = 307 ∨
        r11.status = 305) →
      (runResponses s0 (rs ++ [r11])).lastDisposition =
        some Disposition.kFailure ∧
      (runResponses s0 (rs ++ [r11])).error =
        some ⟨ErrorDomain.NetworkDomain, kC4NetErrTooManyRedirects, ""⟩) := by
  constructor
  · intro final hhr hpx hws hrc hlen hall hlo hhi
    have hinv := runResponses_redirects rs s0 hhr (by omega) hall
    have hws2 : (runResponses s0 rs).isWebSocket = false := by
      rw [hinv.2.2.1, hws]
    have hnp : HTTPLogic.connectingToProxy (runResponses s0 rs) = false := by
      simp [HTTPLogic.connectingToProxy, hinv.2.1, hpx]
    have hfin := receivedResponse_plain_success (runResponses s0 rs) final
      hlo hhi hws2 hnp
    rw [runResponses_append]
    refine ⟨hfin.2.1, ?_⟩
    rw [hfin.2.2, hinv.2.2.2, hrc]
    omega
  · intro r11 hhr hpx hws hrc hlen hall hst
    have hinv := runResponses_redirects rs s0 hhr (by omega) hall
    have hc : (runResponses s0 rs).redirectCount = 10 := by
      rw [hinv.2.2.2, hrc, hlen]
    have hfin := receivedResponse_too_many (runResponses s0 rs) r11
      hinv.1 hc hst
    rw [runResponses_append]
    exact ⟨hfin.2.2, hfin.2.1⟩

/-- A valid relative redirect response. -/
def exRedirect : HTTPResponse := ⟨301, "Moved Permanently", [("Location", "/a")]⟩

/-- Ten consecutive redirect responses. -/
def ex10Redirects : List HTTPResponse := List.replicate 10 exRedirect

/-- Witness for `redirect_chain_capped`: a 2-redirect chain ending in a 200
succeeds; a 10-redirect chain followed by an 11th redirect fails. -/
theorem redirect_chain_capped_witness :
    (runResponses exPlainState
        ([exRedirect, exRedirect] ++ [⟨200, "OK", []⟩])).lastDisposition =
      some Disposition.kSuccess ∧
    (runResponses exPlainState
        (ex10Redirects ++ [exRedirect])).lastDisposition =
      some Disposition.kFailure :=
  ⟨((redirect_chain_capped exPlainState [exRedirect, exRedirect]).1
      ⟨200, "OK", []⟩ rfl rfl (by decide) rfl (by decide) (by decide)
      (by decide) (by decide)).1,
   ((redirect_chain_capped exPlainState ex10Redirects).2
      exRedirect rfl rfl (by decide) rfl (by decide) (by decide)
      (by decide)).1⟩

/-! ### C7: `Authorization` only after a 401 challenge -/

/-- The only way a composed request carries `Authorization: v` is that the
negotiator has been challenged and `v` is the stored credential
(`HTTPLogic.cc`, line 114: `if (_authHeader && _authChallenged)`). -/
theorem requestToSend_authorization_mem (s : HTTPLogicState) (v : String)
    (hv : ("Authorization", v) ∈ HTTPLogic.requestToSend s) :
    s.authChallenged = true ∧ s.authHeader = some v := by
  rcases hauth : s.authHeader with _ | cred <;>
  cases hch : s.authChallenged <;>
  cases hws : s.isWebSocket <;>
  rcases hproto : s.webSocketProtocol with _ | proto <;>
  rcases hpx : s.proxy with _ | p <;>
  simp_all [HTTPLogic.requestToSend, HTTPLogic.connectingToProxy] <;>
  (rcases hpa : p.authHeader with _ | pa <;> simp_all)

/-- C7: no request carries `Authorization` before a 401 has been received (a
fresh `HTTPLogic` starts unchallenged, so the first request to a new host
never includes it, credential configured or not); the first 401 with a
parseable challenge marks the negotiator challenged, keeps the stored
credential, and surfaces `kAuthenticate`, after which the retried request
includes the credential; a second consecutive 401 clears the stored credential
and surfaces `kAuthenticate` again. -/
theorem auth_header_only_after_challenge (s : HTTPLogicState)
    (resp : HTTPResponse) (c : String × String × String) :
    (∀ a h n p, (HTTPLogic.init a h n p).authChallenged = false) ∧
    (s.authChallenged = false →
      ∀ v : String, ("Authorization", v) ∉ HTTPLogic.requestToSend s) ∧
    (resp.status = 401 →
      parseAuthHeader (headersGet resp.headers "Www-Authenticate") = some c →
      s.authChallenged = false →
      ((HTTPLogic.receivedResponse s resp).2 = Disposition.kAuthenticate ∧
       (HTTPLogic.receivedResponse s resp).1.authChallenged = true ∧
       (HTTPLogic.receivedResponse s resp).1.authHeader = s.authHeader ∧
       (∀ cred, s.proxy = none → s.authHeader = some cred →
         ("Authorization", cred) ∈
           HTTPLogic.requestToSend (HTTPLogic.receivedResponse s resp).1))) ∧
    (resp.status = 401 →
      parseAuthHeader (headersGet resp.headers "Www-Authenticate") = some c →
      s.authChallenged = true →
      ((HTTPLogic.receivedResponse s resp).2 = Disposition.kAuthenticate ∧
       (HTTPLogic.receivedResponse s resp).1.authHeader = none)) := by
  refine ⟨fun a h n p => rfl, ?_, ?_, ?_⟩
  · intro hch v hv
    have hmem := requestToSend_authorization_mem s v hv
    rw [hch] at hmem
    exact Bool.false_ne_true hmem.1
  · intro h401 hparse hch
    obtain ⟨ty, key, val⟩ := c
    simp [HTTPLogic.receivedResponse, HTTPLogic.handleResponse, h401, hch,
      HTTPLogic.handleAuthChallenge, hparse]
    intro cred hpx hauth
    simp [HTTPLogic.requestToSend, HTTPLogic.connectingToProxy, hpx, hauth]
  · intro h401 hparse hch
    obtain ⟨ty, key, val⟩ := c
    simp [HTTPLogic.receivedResponse, HTTPLogic.handleResponse, h401, hch,
      HTTPLogic.handleAuthChallenge, hparse]

/-- An unchallenged plain-HTTP negotiation with a credential configured. -/
def exAuthState : HTTPLogicState :=
  {exPlainState with authHeader := some "Basic Zm9v"}

/-- A 401 response carrying a Basic challenge. -/
def exChallenge : HTTPResponse :=
  ⟨401, "Unauthorized", [("Www-Authenticate", "Basic realm=\"Couchbase\"")]⟩

/-- Witness for `auth_header_only_after_challenge`: before the challenge the
credential is withheld; the 401 surfaces `kAuthenticate` and the retried
request carries the credential; a second 401 clears it. -/
theorem auth_header_only_after_challenge_witness :
    ("Authorization", "Basic Zm9v") ∉ HTTPLogic.requestToSend exAuthState ∧
    (HTTPLogic.receivedResponse exAuthState exChallenge).2 =
      Disposition.kAuthenticate ∧
    ("Authorization", "Basic Zm9v") ∈ HTTPLogic.requestToSend
      (HTTPLogic.receivedResponse exAuthState exChallenge).1 ∧
    (HTTPLogic.receivedResponse {exAuthState with authChallenged := true}
      exChallenge).1.authHeader = none := by
  have h := auth_header_only_after_challenge exAuthState exChallenge
    ("Basic", "realm", "Couchbase")
  have h2 := auth_header_only_after_challenge
    {exAuthState with authChallenged := true} exChallenge
    ("Basic", "realm", "Couchbase")
  exact ⟨h.2.1 rfl "Basic Zm9v",
    (h.2.2.1 rfl (by decide) rfl).1,
    (h.2.2.1 rfl (by decide) rfl).2.2.2 "Basic Zm9v" rfl rfl,
    (h2.2.2.2 rfl (by decide) rfl).2⟩

/-! ### C8: the 407 proxy-credential path -/

/-- A proxy address. -/
def exProxyAddr : C4Addr := ⟨"http", "proxy.local", 8080, "/"⟩

/-- A negotiation through an HTTP proxy with a stored proxy credential and no
prior challenge of any kind. -/
def exProxyState : HTTPLogicState :=
  {exPlainState with
    proxy := some ⟨ProxyType.HTTP, exProxyAddr, some "Basic cHJveHk="⟩}

/-- A 407 response carrying a Basic proxy challenge. -/
def exProxyChallenge : HTTPResponse :=
  ⟨407, "Proxy Authentication Required",
   [("Proxy-Authenticate", "Basic realm=\"proxy\"")]⟩

/-- Counterexample to C8 as stated: on the very first 407 (nothing was ever
challenged before), the stored proxy credential is already cleared — it is not
retained until a second consecutive 407 (`HTTPLogic.cc`, lines 179-180 clear
`_proxy->authHeader` unconditionally before surfacing `kAuthenticate`). -/
theorem proxy_credential_cleared_on_first_407 :
    exProxyState.authChallenged = false ∧
    exProxyState.proxy =
      some ⟨ProxyType.HTTP, exProxyAddr, some "Basic cHJveHk="⟩ ∧
    (HTTPLogic.receivedResponse exProxyState exProxyChallenge).2 =
      Disposition.kAuthenticate ∧
    (HTTPLogic.receivedResponse exProxyState exProxyChallenge).1.proxy =
      some ⟨ProxyType.HTTP, exProxyAddr, none⟩ := by decide

/-- C8 (amended): on every 407 with a parseable `Proxy-Authenticate` header,
the negotiator unconditionally clears the stored proxy credential — already on
the first proxy challenge — records the parsed challenge scoped to the proxy,
and surfaces `kAuthenticate`; no proxy-side challenged flag is tracked (the
non-proxy `_authChallenged` flag is untouched). -/
theorem proxy_407_clears_credential (s : HTTPLogicState) (resp : HTTPResponse)
    (p : ProxySpec) (c : String × String × String)
    (hpx : s.proxy = some p) (h407 : resp.status = 407)
    (hparse : parseAuthHeader (headersGet resp.headers "Proxy-Authenticate") =
      some c) :
    (HTTPLogic.receivedResponse s resp).2 = Disposition.kAuthenticate ∧
    (HTTPLogic.receivedResponse s resp).1.proxy =
      some {p with authHeader := none} ∧
    (HTTPLogic.receivedResponse s resp).1.authChallenged = s.authChallenged ∧
    (HTTPLogic.receivedResponse s resp).1.authChallenge =
      some ⟨true, p.address, c.1, c.2.1, c.2.2⟩ := by
  obtain ⟨ty, key, val⟩ := c
  simp [HTTPLogic.receivedResponse, HTTPLogic.handleResponse, h407, hpx,
    HTTPLogic.handleAuthChallenge, hparse]

/-- Witness for `proxy_407_clears_credential` at the concrete proxy setup. -/
theorem proxy_407_clears_credential_witness :
    (HTTPLogic.receivedResponse exProxyState exProxyChallenge).2 =
      Disposition.kAuthenticate ∧
    (HTTPLogic.receivedResponse exProxyState exProxyChallenge).1.authChallenge =
      some ⟨true, exProxyAddr, "Basic", "realm", "proxy"⟩ := by
  have h := proxy_407_clears_credential exProxyState exProxyChallenge
    ⟨ProxyType.HTTP, exProxyAddr, some "Basic cHJveHk="⟩
    ("Basic", "realm", "proxy") rfl rfl (by decide)
  exact ⟨h.1, h.2.2.2⟩

/-! ## Session/Retry controller: the retry ceiling (`c4RemoteReplicator.hh`) -/

/-- `C4ReplicatorActivityLevel` (the levels used by the controller). -/
inductive ActivityLevel where
  | Stopped
  | Offline
  | Connecting
  | Idle
  | Busy
deriving DecidableEq, Repr

/-- A `C4Error` as `handleStopped` consumes it: the code (0 = no error)
together with the verdicts of the external classifiers
`c4error_mayBeTransient` / `c4error_mayBeNetworkDependent` (functions of the
error alone, carried as fields). -/
structure ReplError where
  code : ℕ
  transient : Bool
  networkDependent : Bool
deriving DecidableEq, Repr

/-- The `C4RemoteReplicator` state read and written by `handleStopped`:
status level and error, the `kC4Suspended`/`kC4HostReachable`/`kC4WillRetry`
status flags, `_retryCount`, whether the session is continuous, and the
`kC4ReplicatorOptionMaxRetries` option when it is a number. -/
structure ReplState where
  level : ActivityLevel
  error : ReplError
  suspended : Bool
  hostReachable : Bool
  willRetry : Bool
  retryCount : ℕ
  continuous : Bool
  maxRetriesOpt : Option ℕ
deriving DecidableEq, Repr

/-- `C4RemoteReplicator::maxRetryCount` (`c4RemoteReplicator.hh`, lines
198-206). -/
def maxRetryCount (s : ReplState) : ℕ :=
  match s.maxRetriesOpt with
  | some n => n
  | none => if s.continuous then UINT_MAX else kMaxOneShotRetryCount

/-- `C4RemoteReplicator::handleStopped` (`c4RemoteReplicator.hh`, lines
158-194); the second component is the delay of the retry scheduled by
`scheduleRetry`, when one was scheduled (`scheduleRetry` also sets the
`kC4WillRetry` flag). -/
def handleStopped (s : ReplState) : ReplState × Option ℕ :=
  if s.suspended then ({s with level := .Offline}, none)
  else if s.error.code == 0 then (s, none)
  else if s.error.transient || (s.continuous && s.error.networkDependent) then
    if s.retryCount ≥ maxRetryCount s then (s, none)
    else
      let s1 : ReplState := {s with level := .Offline}
      if s1.error.transient || s1.hostReachable then
        ({s1 with retryCount := s1.retryCount + 1, willRetry := true},
         some (retryDelay (s1.retryCount + 1)))
      else (s1, none)
  else (s, none)

/-- A one-shot session that keeps failing: each cycle the replicator stops
with the transient error `e` (the base class puts the status at `Stopped` with
the error attached before calling `handleStopped`), and `handleStopped` runs.
Returns the final state and how many retries were scheduled in `n` cycles. -/
def oneShotRun (e : ReplError) (s : ReplState) : ℕ → ReplState × ℕ
  | 0 => (s, 0)
  | n + 1 =>
      let sd := handleStopped {s with level := .Stopped, error := e}
      let rest := oneShotRun e sd.1 n
      (rest.1, (if sd.2.isSome then 1 else 0) + rest.2)

/-- Below the one-shot ceiling, a transient stop goes `Offline`, increments
`_retryCount` and schedules a retry with the backoff delay. -/
theorem handleStopped_step_below (s : ReplState)
    (hsus : s.suspended = false) (hcode : s.error.code ≠ 0)
    (htr : s.error.transient = true) (hcont : s.continuous = false)
    (hopt : s.maxRetriesOpt = none) (hrc : s.retryCount < 2) :
    handleStopped s =
      ({s with level := .Offline, retryCount := s.retryCount + 1,
               willRetry := true}, some (retryDelay (s.retryCount + 1))) := by
  have hmax : maxRetryCount s = 2 := by
    simp [maxRetryCount, hopt, hcont, kMaxOneShotRetryCount]
  have hge : ¬(s.retryCount ≥ maxRetryCount s) := by omega
  simp [handleStopped, hsus, hcode, htr, hge]

/-- At the one-shot ceiling, `handleStopped` changes nothing and schedules
nothing. -/
theorem handleStopped_step_at_max (s : ReplState)
    (hsus : s.suspended = false) (hcode : s.error.code ≠ 0)
    (htr : s.error.transient = true) (hcont : s.continuous = false)
    (hopt : s.maxRetriesOpt = none) (hrc : 2 ≤ s.retryCount) :
    handleStopped s = (s, none) := by
  have hmax : maxRetryCount s = 2 := by
    simp [maxRetryCount, hopt, hcont, kMaxOneShotRetryCount]
  have hge : s.retryCount ≥ maxRetryCount s := by omega
  simp [handleStopped, hsus, hcode, htr, hge]

/-- Number of retries scheduled over `n` failing one-shot cycles. -/
theorem oneShotRun_count (e : ReplError) (n : ℕ) :
    ∀ s : ReplState, s.suspended = false → e.code ≠ 0 → e.transient = true →
      s.continuous = false → s.maxRetriesOpt = none →
      (oneShotRun e s n).2 = min n (2 - min s.retryCount 2) := by
  induction n with
  | zero => intro s _ _ _ _ _; simp [oneShotRun]
  | succ n ih =>
    intro s hsus hcode htr hcont hopt
    rw [oneShotRun]
    rcases lt_or_le s.retryCount 2 with hrc | hrc
    · rw [handleStopped_step_below {s with level := .Stopped, error := e}
        hsus hcode htr hcont hopt hrc]
      dsimp only
      rw [ih { level := .Offline, error := e, suspended := s.suspended,
               hostReachable := s.hostReachable, willRetry := true,
               retryCount := s.retryCount + 1, continuous := s.continuous,
               maxRetriesOpt := s.maxRetriesOpt } hsus hcode htr hcont hopt]
      simp
      omega
    · rw [handleStopped_step_at_max {s with level := .Stopped, error := e}
        hsus hcode htr hcont hopt hrc]
      dsimp only
      rw [ih { level := .Stopped, error := e, suspended := s.suspended,
               hostReachable := s.hostReachable, willRetry := s.willRetry,
               retryCount := s.retryCount, continuous := s.continuous,
               maxRetriesOpt := s.maxRetriesOpt } hsus hcode htr hcont hopt]
      simp
      omega

/-- Once the one-shot ceiling is reached, every further failing cycle leaves
the session `Stopped` with the error attached. -/
theorem oneShotRun_stays_stopped (e : ReplError) (n : ℕ) :
    ∀ s : ReplState, s.suspended = false → e.code ≠ 0 → e.transient = true →
      s.continuous = false → s.maxRetriesOpt = none → 2 ≤ s.retryCount →
      (oneShotRun e s (n + 1)).1 = {s with level := .Stopped, error := e} := by
  induction n with
  | zero =>
    intro s hsus hcode htr hcont hopt hrc
    rw [oneShotRun,
      handleStopped_step_at_max {s with level := .Stopped, error := e}
        hsus hcode htr hcont hopt hrc]
    rfl
  | succ n ih =>
    intro s hsus hcode htr hcont hopt hrc
    rw [oneShotRun,
      handleStopped_step_at_max {s with level := .Stopped, error := e}
        hsus hcode htr hcont hopt hrc]
    dsimp only
    rw [ih { level := .Stopped, error := e, suspended := s.suspended,
             hostReachable := s.hostReachable, willRetry := s.willRetry,
             retryCount := s.retryCount, continuous := s.continuous,
             maxRetriesOpt := s.maxRetriesOpt } hsus hcode htr hcont hopt hrc]

/-- C6: a one-shot session with only transient errors schedules at most
`kMaxOneShotRetryCount = 2` retries.  (i) the one-shot default retry ceiling
is 2 and (ii) the continuous default is `UINT_MAX` (unbounded); (iii) below
the ceiling a transient stop goes `Offline`, bumps `_retryCount` and schedules
a retry, while at the ceiling `handleStopped` returns with no retry scheduled
and the level untouched (a `Stopped` session stays fatally `Stopped`); (iv)
over any `n` failing cycles from `_retryCount = 0` exactly `min n 2` retries
are scheduled; (v) once the ceiling is reached the session stays `Stopped`
with the error attached. -/
theorem oneshot_retry_ceiling :
    (∀ s : ReplState, s.continuous = false → s.maxRetriesOpt = none →
      maxRetryCount s = kMaxOneShotRetryCount) ∧
    (∀ s : ReplState, s.continuous = true → s.maxRetriesOpt = none →
      maxRetryCount s = UINT_MAX) ∧
    (∀ s : ReplState, s.suspended = false → s.error.code ≠ 0 →
      s.error.transient = true → s.continuous = false →
      s.maxRetriesOpt = none →
      (s.retryCount < kMaxOneShotRetryCount →
        (handleStopped s).1.level = ActivityLevel.Offline ∧
        (handleStopped s).1.retryCount = s.retryCount + 1 ∧
        (handleStopped s).2 = some (retryDelay (s.retryCount + 1))) ∧
      (kMaxOneShotRetryCount ≤ s.retryCount → handleStopped s = (s, none))) ∧
    (∀ (e : ReplError) (s : ReplState) (n : ℕ), s.suspended = false →
      e.code ≠ 0 → e.transient = true → s.continuous = false →
      s.maxRetriesOpt = none → s.retryCount = 0 →
      (oneShotRun e s n).2 = min n 2) ∧
    (∀ (e : ReplError) (s : ReplState) (n : ℕ), s.suspended = false →
      e.code ≠ 0 → e.transient = true → s.continuous = false →
      s.maxRetriesOpt = none → 2 ≤ s.retryCount →
      (oneShotRun e s (n + 1)).1 = {s with level := .Stopped, error := e}) := by
  refine ⟨?_, ?_, ?_, ?_, fun e s n => oneShotRun_stays_stopped e n s⟩
  · intro s h1 h2; simp [maxRetryCount, h2, h1]
  · intro s h1 h2; simp [maxRetryCount, h2, h1]
  · intro s hsus hcode htr hcont hopt
    constructor
    · intro hrc
      rw [handleStopped_step_below s hsus hcode htr hcont hopt hrc]
      exact ⟨rfl, rfl, rfl⟩
    · intro hrc
      exact handleStopped_step_at_max s hsus hcode htr hcont hopt hrc
  · intro e s n hsus hcode htr hcont hopt hrc0
    rw [oneShotRun_count e n s hsus hcode htr hcont hopt, hrc0]
    simp

/-- A transient error (code 5, e.g. a timeout). -/
def exErr : ReplError := ⟨5, true, false⟩

/-- A one-shot session state carrying `exErr`, retry count 0. -/
def exOneShotState : ReplState :=
  ⟨.Stopped, exErr, false, true, false, 0, false, none⟩

/-- The same session at the retry ceiling. -/
def exAtMaxState : ReplState :=
  ⟨.Stopped, exErr, false, true, false, 2, false, none⟩

/-- Witness for `oneshot_retry_ceiling` on concrete sessions. -/
theorem oneshot_retry_ceiling_witness :
    maxRetryCount exOneShotState = 2 ∧
    maxRetryCount {exOneShotState with continuous := true} = UINT_MAX ∧
    (handleStopped exOneShotState).2 = some 2 ∧
    (oneShotRun exErr exOneShotState 5).2 = 2 ∧
    (oneShotRun exErr exAtMaxState 4).1 = exAtMaxState := by
  refine ⟨oneshot_retry_ceiling.1 exOneShotState rfl rfl,
    oneshot_retry_ceiling.2.1 {exOneShotState with continuous := true} rfl rfl,
    ?_, ?_, ?_⟩
  · have h := (oneshot_retry_ceiling.2.2.1 exOneShotState rfl (by decide) rfl
      rfl rfl).1 (by decide)
    exact h.2.2.trans (by decide)
  · exact (oneshot_retry_ceiling.2.2.2.1 exErr exOneShotState 5 rfl (by decide)
      rfl rfl rfl rfl).trans (by decide)
  · exact (oneshot_retry_ceiling.2.2.2.2 exErr exAtMaxState 3 rfl (by decide)
      rfl rfl rfl (by decide)).trans (by decide)

/-! ## Checkpoint store (`Checkpointer.hh`; implementation not under `src/`) -/

/-- Modelled from the spec: the `Checkpoint` owned by the Checkpointer (its
implementation file is not under `src/`).  §3 of the spec defines it as
`{localMinSequence, remoteMinSequence}`, with zero values sequence `0` and the
empty cursor. -/
structure Checkpoint where
  localMinSequence : ℕ
  remoteMinSequence : String
deriving DecidableEq, Repr

/-- Modelled from the spec: `Checkpointer::validateWith`, whose contract is
stated at `Checkpointer.hh` lines 33-36 ("Compares my state with another
Checkpoint.  If the local sequences differ, mine will be reset to 0; if the
remote sequences differ, mine will be reset to empty") and in §4.2 of the
spec; the implementation is not under `src/`. -/
def validateWith (mine peer : Checkpoint) : Checkpoint :=
  { localMinSequence :=
      if mine.localMinSequence = peer.localMinSequence then
        mine.localMinSequence
      else 0
    remoteMinSequence :=
      if mine.remoteMinSequence = peer.remoteMinSequence then
        mine.remoteMinSequence
      else "" }

/-! ### C9: `validateWith` resets exactly the mismatched axis -/

/-- C9: `validateWith` against a peer with a differing `localMinSequence`
resets only the local sequence to 0; a differing `remoteMinSequence` resets
only the remote cursor to empty; a matching axis is left untouched.  In
particular `{local: 42, remote: "abc"}` validated against
`{local: 10, remote: "abc"}` becomes `{local: 0, remote: "abc"}`. -/
theorem validateWith_resets_mismatched_axis (mine peer : Checkpoint) :
    (mine.localMinSequence ≠ peer.localMinSequence →
      (validateWith mine peer).localMinSequence = 0) ∧
    (mine.localMinSequence = peer.localMinSequence →
      (validateWith mine peer).localMinSequence = mine.localMinSequence) ∧
    (mine.remoteMinSequence ≠ peer.remoteMinSequence →
      (validateWith mine peer).remoteMinSequence = "") ∧
    (mine.remoteMinSequence = peer.remoteMinSequence →
      (validateWith mine peer).remoteMinSequence = mine.remoteMinSequence) ∧
    validateWith ⟨42, "abc"⟩ ⟨10, "abc"⟩ = ⟨0, "abc"⟩ := by
  refine ⟨?_, ?_, ?_, ?_, by decide⟩ <;> intro h <;> simp [validateWith, h]

/-- Witness for `validateWith_resets_mismatched_axis` at the spec's example. -/
theorem validateWith_resets_mismatched_axis_witness :
    (validateWith ⟨42, "abc"⟩ ⟨10, "abc"⟩).localMinSequence = 0 ∧
    (validateWith ⟨42, "abc"⟩ ⟨10, "abc"⟩).remoteMinSequence = "abc" := by
  have h := validateWith_resets_mismatched_axis ⟨42, "abc"⟩ ⟨10, "abc"⟩
  exact ⟨h.1 (by decide), h.2.2.2.1 rfl⟩

/-! ### C2: autosave debouncing and coalescing -/

/-- Modelled from the spec: the Checkpointer's autosave state.
`Checkpointer.hh` (lines 138-144) declares the fields `_changed`, `_saving`,
`_overdueForSave` and a one-shot timer; the implementation is not under
`src/`.  §4.2 of the spec: the timer is armed on the first change after a
quiescent period; when it fires and no save is in progress the save callback
runs ("saving"); a change during a save sets the overdue flag instead;
`saveCompleted` ends the save and immediately starts another one when
overdue.  `savesStarted`/`savesCompleted` count callback invocations and
their reported completions. -/
structure AutosaveState where
  changed : Bool
  saving : Bool
  overdueForSave : Bool
  timerArmed : Bool
  savesStarted : ℕ
  savesCompleted : ℕ
deriving DecidableEq, Repr

/-- The three events that drive the autosave logic. -/
inductive AutosaveEvent where
  | change
  | timerFires
  | saveCompleted
deriving DecidableEq, Repr

/-- Modelled from the spec (§4.2, and the `stopAutosave`/`saveCompleted`
comments in `Checkpointer.hh` lines 87-98): one autosave transition. -/
def autosaveStep (s : AutosaveState) : AutosaveEvent → AutosaveState
  | .change =>
      if s.saving then {s with changed := true, overdueForSave := true}
      else if s.changed then s
      else {s with changed := true, timerArmed := true}
  | .timerFires =>
      if !s.timerArmed then s
      else if s.saving then {s with timerArmed := false}
      else {s with timerArmed := false, changed := false, saving := true,
                   savesStarted := s.savesStarted + 1}
  | .saveCompleted =>
      if !s.saving then s
      else
        let s1 : AutosaveState :=
          {s with saving := false, savesCompleted := s.savesCompleted + 1}
        if s1.overdueForSave then
          {s1 with overdueForSave := false, changed := false, saving := true,
                   savesStarted := s1.savesStarted + 1}
        else s1

/-- The quiescent state right after `enableAutosave`. -/
def autosaveInit : AutosaveState := ⟨false, false, false, false, 0, 0⟩

/-- Running a sequence of autosave events from the quiescent state. -/
def autosaveRun (evs : List AutosaveEvent) : AutosaveState :=
  evs.foldl autosaveStep autosaveInit

/-- The autosave safety invariant: the saving flag tracks exactly one
outstanding callback, overdue implies a save is in flight, the timer is never
armed during a save, and a pending change always has either the timer armed or
the overdue flag set (no change is lost). -/
def AutosaveInv (s : AutosaveState) : Prop :=
  (s.saving = true → s.savesStarted = s.savesCompleted + 1) ∧
  (s.saving = false → s.savesStarted = s.savesCompleted) ∧
  (s.overdueForSave = true → s.saving = true) ∧
  (s.saving = true → s.timerArmed = false) ∧
  (s.changed = true → s.timerArmed = true ∨ s.overdueForSave = true)

/-- Every autosave transition preserves the invariant. -/
theorem autosaveStep_inv (s : AutosaveState) (ev : AutosaveEvent)
    (h : AutosaveInv s) : AutosaveInv (autosaveStep s ev) := by
  obtain ⟨h1, h2, h3, h4, h5⟩ := h
  cases ev <;>
  cases hs : s.saving <;> cases hc : s.changed <;>
  cases ho : s.overdueForSave <;> cases ht : s.timerArmed <;>
  simp_all [autosaveStep, AutosaveInv]

/-- The invariant holds after any event sequence from the quiescent state. -/
theorem autosaveRun_inv (evs : List AutosaveEvent) :
    AutosaveInv (autosaveRun evs) := by
  rw [autosaveRun]
  generalize hs : autosaveInit = s0
  have h0 : AutosaveInv s0 := by
    rw [← hs]
    exact ⟨by simp [autosaveInit], by simp [autosaveInit],
      by simp [autosaveInit], by simp [autosaveInit], by simp [autosaveInit]⟩
  clear hs
  induction evs generalizing s0 with
  | nil => exact h0
  | cons e es ih => exact ih _ (autosaveStep_inv s0 e h0)

/-- C2: after `enableAutosave`, (i) in every reachable state at most one save
callback is in flight (`savesStarted ≤ savesCompleted + 1`) and no change is
lost (a pending change has the timer armed or the overdue flag set, and
overdue implies a save is in flight that will re-trigger); (ii) two changes
arriving before the timer fires produce exactly one save callback; (iii) a
change arriving while a save is in flight produces exactly one additional
callback, fired at `saveCompleted` — and a further `saveCompleted` with no new
change produces none. -/
theorem autosave_coalescing :
    (∀ evs : List AutosaveEvent,
      (autosaveRun evs).savesStarted ≤ (autosaveRun evs).savesCompleted + 1 ∧
      ((autosaveRun evs).changed = true →
        (autosaveRun evs).timerArmed = true ∨
        (autosaveRun evs).overdueForSave = true) ∧
      ((autosaveRun evs).overdueForSave = true →
        (autosaveRun evs).saving = true)) ∧
    (autosaveRun [.change, .change, .timerFires]).savesStarted = 1 ∧
    (autosaveRun [.change, .timerFires, .change]).savesStarted = 1 ∧
    (autosaveRun [.change, .timerFires, .change,
      .saveCompleted]).savesStarted = 2 ∧
    (autosaveRun [.change, .timerFires, .change, .saveCompleted,
      .saveCompleted]).savesStarted = 2 := by
  refine ⟨?_, by decide, by decide, by decide, by decide⟩
  intro evs
  obtain ⟨h1, h2, h3, h4, h5⟩ := autosaveRun_inv evs
  refine ⟨?_, h5, h3⟩
  cases hsv : (autosaveRun evs).saving
  · rw [h2 hsv]; omega
  · rw [h1 hsv]

/-- Witness for `autosave_coalescing` at concrete event sequences. -/
theorem autosave_coalescing_witness :
    (autosaveRun [.change, .timerFires]).savesStarted ≤
      (autosaveRun [.change, .timerFires]).savesCompleted + 1 ∧
    ((autosaveRun [.change]).timerArmed = true ∨
     (autosaveRun [.change]).overdueForSave = true) :=
  ⟨(autosave_coalescing.1 [.change, .timerFires]).1,
   (autosave_coalescing.1 [.change]).2.1 (by decide)⟩

/-! ### C1: the pending-sequence set and `localMinSequence` -/

/-- Modelled from the spec: the Checkpointer's pending-sequence state.
`Checkpointer.hh` (lines 38-46) declares `addPendingSequence` /
`completedSequence` / `localMinSequence`; the implementation (the
`Checkpoint`/sequence-set classes) is not under `src/`.  §3 of the spec:
the PendingSequenceSet holds the sequences read from the database but not yet
confirmed; `maxSeq` is the highest sequence handed to the store (the change
driver scans in ascending sequence order). -/
structure PendingSeqs where
  pending : Finset ℕ
  maxSeq : ℕ

/-- Modelled from the spec (§4.2): `addPendingSequence(seq)` inserts into the
pending set. -/
def addPendingSequence (s : PendingSeqs) (seq : ℕ) : PendingSeqs :=
  ⟨insert seq s.pending, max s.maxSeq seq⟩

/-- Modelled from the spec (§4.2): `completedSequence(seq)` removes from the
pending set. -/
def completedSequence (s : PendingSeqs) (seq : ℕ) : PendingSeqs :=
  ⟨s.pending.erase seq, s.maxSeq⟩

/-- Modelled from the spec (§3): the exposed `localMinSequence` — the largest
contiguous prefix of naturals starting at 1 fully removed from the pending
set, i.e. one less than the least pending sequence, or the highest sequence
seen when nothing is pending. -/
def localMinSequence (s : PendingSeqs) : ℕ :=
  if h : s.pending.Nonempty then s.pending.min' h - 1 else s.maxSeq

/-- A Checkpoint Store operation on the pending set. -/
inductive CkOp where
  | add (seq : ℕ)
  | complete (seq : ℕ)
deriving DecidableEq, Repr

/-- Applying one operation. -/
def applyOp (s : PendingSeqs) : CkOp → PendingSeqs
  | .add q => addPendingSequence s q
  | .complete q => completedSequence s q

/-- Applying a list of operations in order. -/
def runOps (s : PendingSeqs) (ops : List CkOp) : PendingSeqs :=
  ops.foldl applyOp s

/-- An operation the Change Driver can issue at state `s`: sequences are added
in ascending order (each new sequence is beyond everything handed over so
far), and only pending sequences are completed. -/
def ValidOp (s : PendingSeqs) : CkOp → Prop
  | .add q => s.maxSeq < q
  | .complete q => q ∈ s.pending

instance instDecValidOp (s : PendingSeqs) (op : CkOp) :
    Decidable (ValidOp s op) := by
  cases op <;> (unfold ValidOp; exact inferInstance)

/-- A valid operation sequence. -/
def ValidOps : PendingSeqs → List CkOp → Prop
  | _, [] => True
  | s, op :: ops => ValidOp s op ∧ ValidOps (applyOp s op) ops

instance instDecValidOps :
    (s : PendingSeqs) → (ops : List CkOp) → Decidable (ValidOps s ops)
  | _, [] => isTrue trivial
  | s, op :: ops =>
    haveI : Decidable (ValidOps (applyOp s op) ops) := instDecValidOps _ _
    by unfold ValidOps; exact inferInstance

/-- The pending-set invariant: pending sequences are positive and no larger
than the highest sequence handed to the store. -/
def PSInv (s : PendingSeqs) : Prop :=
  ∀ q ∈ s.pending, 1 ≤ q ∧ q ≤ s.maxSeq

instance instDecPSInv (s : PendingSeqs) : Decidable (PSInv s) := by
  unfold PSInv; exact inferInstance

/-- The empty store. -/
def psInit : PendingSeqs := ⟨∅, 0⟩

/-- Valid operations preserve the pending-set invariant. -/
theorem psInv_applyOp (s : PendingSeqs) (op : CkOp) (h : PSInv s)
    (hv : ValidOp s op) : PSInv (applyOp s op) := by
  cases op with
  | add q =>
    have hq : s.maxSeq < q := hv
    intro x hx
    simp only [applyOp, addPendingSequence, Finset.mem_insert] at hx
    rcases hx with rfl | hx
    · exact ⟨by omega, by simp only [applyOp, addPendingSequence]; omega⟩
    · obtain ⟨h1, h2⟩ := h x hx
      exact ⟨h1, by simp only [applyOp, addPendingSequence]; omega⟩
  | complete q =>
    intro x hx
    exact h x (Finset.mem_of_mem_erase hx)

/-- `localMinSequence` is exactly the largest contiguous prefix of naturals
starting at 1 with no pending member: every `1 ≤ k ≤ localMinSequence` is
non-pending, and `localMinSequence + 1` is pending whenever anything is. -/
theorem localMin_spec (s : PendingSeqs) (hInv : PSInv s) :
    (∀ k, 1 ≤ k → k ≤ localMinSequence s → k ∉ s.pending) ∧
    (∀ h : s.pending.Nonempty, localMinSequence s + 1 ∈ s.pending) := by
  by_cases hne : s.pending.Nonempty
  · have hmin1 : 1 ≤ s.pending.min' hne := (hInv _ (s.pending.min'_mem hne)).1
    constructor
    · intro k hk1 hk2 hkmem
      rw [localMinSequence, dif_pos hne] at hk2
      have := s.pending.min'_le k hkmem
      omega
    · intro _
      rw [localMinSequence, dif_pos hne]
      have heq : s.pending.min' hne - 1 + 1 = s.pending.min' hne := by omega
      rw [heq]
      exact s.pending.min'_mem hne
  · constructor
    · intro k _ _ hk
      exact hne ⟨k, hk⟩
    · intro h
      exact absurd h hne

/-- One valid operation never decreases `localMinSequence`. -/
theorem localMin_mono_op (s : PendingSeqs) (op : CkOp) (hInv : PSInv s)
    (hv : ValidOp s op) :
    localMinSequence s ≤ localMinSequence (applyOp s op) := by
  cases op with
  | add q =>
    have hq : s.maxSeq < q := hv
    by_cases hne : s.pending.Nonempty
    · have hmle : s.pending.min' hne ≤ s.maxSeq :=
        (hInv _ (s.pending.min'_mem hne)).2
      have hne2 : (insert q s.pending).Nonempty := s.pending.insert_nonempty q
      have hkey : (insert q s.pending).min' hne2 = min (s.pending.min' hne) q :=
        Finset.min'_insert q s.pending hne
      have hmin : min (s.pending.min' hne) q = s.pending.min' hne :=
        min_eq_left (by omega)
      rw [localMinSequence, dif_pos hne]
      show _ ≤ localMinSequence ⟨insert q s.pending, max s.maxSeq q⟩
      rw [localMinSequence]
      rw [dif_pos hne2]
      simp only at hkey ⊢
      rw [hkey, hmin]
    · rw [localMinSequence, dif_neg hne]
      show s.maxSeq ≤ localMinSequence ⟨insert q s.pending, max s.maxSeq q⟩
      rw [Finset.not_nonempty_iff_eq_empty] at hne
      rw [localMinSequence]
      simp only [hne, insert_emptyc_eq]
      rw [dif_pos (Finset.singleton_nonempty q)]
      simp [Finset.min'_singleton]
      omega
  | complete q =>
    have hq : q ∈ s.pending := hv
    have hne : s.pending.Nonempty := ⟨q, hq⟩
    have hmle : s.pending.min' hne ≤ s.maxSeq :=
      (hInv _ (s.pending.min'_mem hne)).2
    rw [localMinSequence, dif_pos hne]
    show _ ≤ localMinSequence ⟨s.pending.erase q, s.maxSeq⟩
    rw [localMinSequence]
    by_cases hne2 : (s.pending.erase q).Nonempty
    · rw [dif_pos hne2]
      have hle : s.pending.min' hne ≤ (s.pending.erase q).min' hne2 := by
        have := Finset.min'_subset hne2 (s.pending.erase_subset q)
        omega
      simp only
      omega
    · rw [dif_neg hne2]
      simp only
      omega

/-- Completing a sequence other than the least pending one leaves
`localMinSequence` unchanged: only closing the gap at the front advances
it. -/
theorem localMin_complete_nonmin (s : PendingSeqs) (q : ℕ)
    (hne : s.pending.Nonempty) (hqmin : q ≠ s.pending.min' hne) :
    localMinSequence (completedSequence s q) = localMinSequence s := by
  have hmem : s.pending.min' hne ∈ s.pending.erase q :=
    Finset.mem_erase.mpr ⟨Ne.symm hqmin, s.pending.min'_mem hne⟩
  have hne2 : (s.pending.erase q).Nonempty := ⟨_, hmem⟩
  have hle : s.pending.min' hne ≤ (s.pending.erase q).min' hne2 :=
    Finset.min'_subset hne2 (s.pending.erase_subset q)
  have hge : (s.pending.erase q).min' hne2 ≤ s.pending.min' hne :=
    Finset.min'_le _ _ hmem
  rw [localMinSequence, localMinSequence, dif_pos hne]
  simp only [completedSequence]
  rw [dif_pos hne2]
  omega

/-- `localMinSequence` never decreases across a valid operation sequence, and
the invariant is preserved. -/
theorem localMin_mono_run (ops : List CkOp) :
    ∀ s : PendingSeqs, PSInv s → ValidOps s ops →
      localMinSequence s ≤ localMinSequence (runOps s ops) ∧
      PSInv (runOps s ops) := by
  induction ops with
  | nil => intro s h _; exact ⟨le_refl _, h⟩
  | cons op ops ih =>
    intro s h hv
    obtain ⟨hv1, hv2⟩ := hv
    have h2 := psInv_applyOp s op h hv1
    have step := localMin_mono_op s op h hv1
    have rest := ih (applyOp s op) h2 hv2
    exact ⟨le_trans step rest.1, rest.2⟩

/-- C1: over the modelled Checkpoint Store, `localMinSequence` is exactly the
largest contiguous prefix of naturals starting at 1 whose members are all
completed (no longer pending): every `1 ≤ k ≤ localMinSequence` is
non-pending and `localMinSequence + 1` is still pending whenever anything is;
it never decreases across any valid operation sequence; completing a sequence
other than the least pending one leaves it unchanged (only closing the front
gap advances it).  For the spec example: after adding {1,2,3,5}, completing 2
leaves it at 0, completing 2 then 1 reaches 2, completing 2, 1, 3 reaches 4,
and completing only 5 (gap at the front) leaves it at 0 — never past 4. -/
theorem checkpointer_localMin_contiguous_prefix (s : PendingSeqs)
    (ops : List CkOp) (hInv : PSInv s) (hv : ValidOps s ops) :
    ((∀ k, 1 ≤ k → k ≤ localMinSequence s → k ∉ s.pending) ∧
     (∀ h : s.pending.Nonempty, localMinSequence s + 1 ∈ s.pending)) ∧
    localMinSequence s ≤ localMinSequence (runOps s ops) ∧
    (∀ (q : ℕ) (h : s.pending.Nonempty), q ≠ s.pending.min' h →
      localMinSequence (completedSequence s q) = localMinSequence s) ∧
    localMinSequence (runOps psInit
      [.add 1, .add 2, .add 3, .add 5, .complete 2]) = 0 ∧
    localMinSequence (runOps psInit
      [.add 1, .add 2, .add 3, .add 5, .complete 2, .complete 1]) = 2 ∧
    localMinSequence (runOps psInit
      [.add 1, .add 2, .add 3, .add 5, .complete 2, .complete 1,
       .complete 3]) = 4 ∧
    localMinSequence (runOps psInit
      [.add 1, .add 2, .add 3, .add 5, .complete 5]) = 0 := by
  refine ⟨localMin_spec s hInv, (localMin_mono_run ops s hInv hv).1,
    fun q h hqmin => localMin_complete_nonmin s q h hqmin,
    by decide, by decide, by decide, by decide⟩

/-- The store after the Change Driver added sequences 1, 2, 3, 5. -/
def psFour : PendingSeqs := runOps psInit [.add 1, .add 2, .add 3, .add 5]

/-- Witness for `checkpointer_localMin_contiguous_prefix` at the spec's
example state. -/
theorem checkpointer_localMin_contiguous_prefix_witness :
    localMinSequence psFour ≤ localMinSequence
      (runOps psFour [.complete 2, .complete 1, .complete 3]) ∧
    localMinSequence (completedSequence psFour 5) = localMinSequence psFour := by
  have h := checkpointer_localMin_contiguous_prefix psFour
    [.complete 2, .complete 1, .complete 3] (by decide) (by decide)
  exact ⟨h.2.1, h.2.2.1 5 (by decide) (by decide)⟩

end CBL
